import Mathlib

/-!
Shallow embedding of the aseprite-bevy repository's core logic
(src/aseprite.rs): the hex color parser, the direction-aware frame slice
sequencer, and the per-tag animation state builder.

Modeling conventions:
* Rust machine integers (usize, u32, u8) are modeled as Nat.  Arithmetic
  that can overflow or underflow is modeled as Rust's checked (debug
  profile, overflow-checks enabled) arithmetic: an operation whose result
  would leave the machine range is a panic.  A function that can panic
  returns Option, with none standing for the panic; where the
  release-profile wrapping behavior differs in an observable way this is
  noted at the theorems concerned.
* Rust strings are modeled as Lean String; byte positions are computed
  from the UTF-8 sizes of the characters, so that the byte slicing done
  by the color parser (and its panic on a non-character boundary) is
  modeled faithfully.
* External collaborator types (bevy's TextureAtlasLayout and TextureAtlas)
  are modeled by their observable content: the layout is the ordered list
  of added rectangles plus the sheet size, and the atlas holds the layout
  value in place of an asset handle.
-/

/-- Number of values of the Rust usize type (64-bit platform). -/
def USIZE : Nat := 2 ^ 64

/-- Number of values of the Rust u32 type. -/
def U32 : Nat := 2 ^ 32

/-- Kinds of core::num::ParseIntError relevant to u8::from_str_radix. -/
inductive ParseIntError
  | empty
  | invalidDigit
  | posOverflow
  | negOverflow
deriving DecidableEq, Repr

/-- ColorParseError from src/aseprite.rs. -/
inductive ColorParseError
  | noHashtag
  | wrongLength (len : Nat)
  | parseIntError (e : ParseIntError)
deriving DecidableEq, Repr

/-- AsepriteColor from src/aseprite.rs: four u8 components. -/
structure AsepriteColor where
  red : Nat
  green : Nat
  blue : Nat
  alpha : Nat
deriving DecidableEq, Repr

/-- char::to_digit(16): hex digit value of a character. -/
def hexDigitVal (c : Char) : Option Nat :=
  if '0' ≤ c ∧ c ≤ '9' then some (c.toNat - '0'.toNat)
  else if 'a' ≤ c ∧ c ≤ 'f' then some (10 + (c.toNat - 'a'.toNat))
  else if 'A' ≤ c ∧ c ≤ 'F' then some (10 + (c.toNat - 'A'.toNat))
  else none

/-- Digit-accumulation loop of u8::from_str_radix (radix 16, non-negative):
each digit multiplies the accumulator by 16 and adds; exceeding the u8
range is PosOverflow. -/
def parseHexU8Digits : List Char → Nat → Except ParseIntError Nat
  | [], acc => .ok acc
  | c :: rest, acc =>
    match hexDigitVal c with
    | none => .error .invalidDigit
    | some d =>
      if 255 < acc * 16 + d then .error .posOverflow
      else parseHexU8Digits rest (acc * 16 + d)

/-- Digit loop of u8::from_str_radix after a leading minus sign: for an
unsigned type every nonzero digit underflows (NegOverflow). -/
def parseHexU8NegDigits : List Char → Except ParseIntError Nat
  | [] => .ok 0
  | c :: rest =>
    match hexDigitVal c with
    | none => .error .invalidDigit
    | some d => if 0 < d then .error .negOverflow else parseHexU8NegDigits rest

/-- u8::from_str_radix(s, 16): optional sign, then hex digits. -/
def fromStrRadix16U8 (s : List Char) : Except ParseIntError Nat :=
  match s with
  | [] => .error .empty
  | '+' :: rest => if rest = [] then .error .invalidDigit else parseHexU8Digits rest 0
  | '-' :: rest => if rest = [] then .error .invalidDigit else parseHexU8NegDigits rest
  | _ => parseHexU8Digits s 0

/-- str::len(): the UTF-8 byte length of a character list. -/
def utf8Len : List Char → Nat
  | [] => 0
  | c :: rest => c.utf8Size + utf8Len rest

/-- The characters occupying the first n bytes of the text, or none when
byte position n is out of range or not a character boundary (the cases
where Rust byte slicing panics). -/
def takeBytes (l : List Char) (n : Nat) : Option (List Char) :=
  if n = 0 then some []
  else
    match l with
    | [] => none
    | c :: rest =>
      if c.utf8Size ≤ n then (takeBytes rest (n - c.utf8Size)).map (List.cons c)
      else none

/-- The characters after the first n bytes of the text, or none when byte
position n is out of range or not a character boundary. -/
def dropBytes (l : List Char) (n : Nat) : Option (List Char) :=
  if n = 0 then some l
  else
    match l with
    | [] => none
    | c :: rest =>
      if c.utf8Size ≤ n then dropBytes rest (n - c.utf8Size)
      else none

/-- The byte range value[a..b] of a string, as used both by panicking
slice indexing (none = panic) and by str::get (none = None). -/
def sliceBytes (l : List Char) (a b : Nat) : Option (List Char) :=
  match dropBytes l a with
  | none => none
  | some tail => takeBytes tail (b - a)

/-- TryFrom String for AsepriteColor from src/aseprite.rs.  The outer
Option is a panic (none occurs when a byte-range index used for slicing
falls on a non-character boundary or out of range); value.get(7..9)
returning None instead selects the default alpha 255. -/
def asepriteColorTryFrom (value : String) : Option (Except ColorParseError AsepriteColor) :=
  if utf8Len value.data ≠ 7 ∧ utf8Len value.data ≠ 9 then
    some (.error (.wrongLength (utf8Len value.data)))
  else
    match sliceBytes value.data 0 1 with
    | none => none
    | some h0 =>
      if h0 ≠ ['#'] then some (.error .noHashtag)
      else
        match sliceBytes value.data 1 3 with
        | none => none
        | some rs =>
          match fromStrRadix16U8 rs with
          | .error e => some (.error (.parseIntError e))
          | .ok red =>
            match sliceBytes value.data 3 5 with
            | none => none
            | some gs =>
              match fromStrRadix16U8 gs with
              | .error e => some (.error (.parseIntError e))
              | .ok green =>
                match sliceBytes value.data 5 7 with
                | none => none
                | some bs =>
                  match fromStrRadix16U8 bs with
                  | .error e => some (.error (.parseIntError e))
                  | .ok blue =>
                    match (match sliceBytes value.data 7 9 with
                           | none => Except.ok 255
                           | some av => fromStrRadix16U8 av) with
                    | .error e => some (.error (.parseIntError e))
                    | .ok alpha => some (.ok ⟨red, green, blue, alpha⟩)

/-- AnimationDirection from src/aseprite.rs. -/
inductive AnimationDirection
  | forward
  | reverse
deriving DecidableEq, Repr

/-- BlendMode from src/aseprite.rs. -/
inductive BlendMode
  | normal
deriving DecidableEq, Repr

/-- AsepriteLayer from src/aseprite.rs. -/
structure AsepriteLayer where
  name : String
  opacity : Nat
  blend_mode : BlendMode
deriving Repr

/-- AsepriteRect from src/aseprite.rs: u32 fields. -/
structure AsepriteRect where
  x : Nat
  y : Nat
  w : Nat
  h : Nat
deriving DecidableEq, Repr

/-- AsepriteRect::size, a UVec2 modeled as a pair. -/
def AsepriteRect.size (r : AsepriteRect) : Nat × Nat := (r.w, r.h)

/-- AsepriteSize from src/aseprite.rs. -/
structure AsepriteSize where
  w : Nat
  h : Nat
deriving DecidableEq, Repr

/-- From AsepriteSize for UVec2. -/
def uvecOfSize (s : AsepriteSize) : Nat × Nat := (s.w, s.h)

/-- bevy URect: min and max corners. -/
structure URect where
  min : Nat × Nat
  max : Nat × Nat
deriving DecidableEq, Repr

/-- From AsepriteRect for URect: max is computed with the u32 additions
x + w and y + h, which are checked (none = overflow panic). -/
def urectOfRect (r : AsepriteRect) : Option URect :=
  if r.x + r.w < U32 ∧ r.y + r.h < U32 then
    some ⟨(r.x, r.y), (r.x + r.w, r.y + r.h)⟩
  else none

/-- AsepriteFrame from src/aseprite.rs. -/
structure AsepriteFrame where
  filename : String
  frame : AsepriteRect
  rotated : Bool
  trimmed : Bool
  sprite_source_size : AsepriteRect
  source_size : AsepriteSize
  duration : Nat
deriving DecidableEq, Repr

/-- FrameTag from src/aseprite.rs. -/
structure FrameTag where
  name : String
  «from» : Nat
  «to» : Nat
  direction : AnimationDirection
  color : AsepriteColor
deriving Repr

/-- AsepriteFrames from src/aseprite.rs: the untagged union of the list
form and the dictionary form of the frames member. -/
inductive AsepriteFrames
  | list (l : List AsepriteFrame)
  | dict (d : List (String × AsepriteFrame))
deriving Repr

/-- AsepriteFrames::get: Vec::get on the list form; the dictionary form
is an unimplemented todo, so reaching it is a panic (outer none). -/
def asepriteFramesGet (fr : AsepriteFrames) (i : Nat) : Option (Option AsepriteFrame) :=
  match fr with
  | .list l => some (l.get? i)
  | .dict _ => none

/-- AsepriteMeta from src/aseprite.rs. -/
structure AsepriteMeta where
  app : String
  version : String
  image : String
  format : String
  size : AsepriteSize
  scale : String
  frame_tags : List FrameTag
  layers : Option (List AsepriteLayer)
  slices : Option (List Unit)
deriving Repr

/-- AsepriteJson from src/aseprite.rs. -/
structure AsepriteJson where
  frames : AsepriteFrames
  meta : AsepriteMeta
deriving Repr

/-- bevy TextureAtlasLayout, modeled by its observable content: the
overall size it was created with and the ordered list of added
rectangles. -/
structure TextureAtlasLayout where
  size : Nat × Nat
  textures : List URect
deriving DecidableEq, Repr

/-- TextureAtlasLayout::new_empty. -/
def TextureAtlasLayout.new_empty (s : Nat × Nat) : TextureAtlasLayout := ⟨s, []⟩

/-- TextureAtlasLayout::add_texture: appends a rectangle. -/
def TextureAtlasLayout.add_texture (l : TextureAtlasLayout) (r : URect) : TextureAtlasLayout :=
  { l with textures := l.textures ++ [r] }

/-- bevy TextureAtlas: the built layout (standing in for the labeled
asset handle) and the current index. -/
structure TextureAtlas where
  layout : TextureAtlasLayout
  index : Nat
deriving DecidableEq, Repr

/-- AsepriteState from src/aseprite.rs.  The color field keeps the parsed
AsepriteColor (the source converts it to bevy's f32 sRGB color, an
external numeric conversion not otherwise observed). -/
structure AsepriteState where
  name : String
  direction : AnimationDirection
  color : AsepriteColor
  atlas : TextureAtlas
  durations : List Nat
  first : Nat
  last : Nat
deriving Repr

/-- AsepriteError from src/aseprite.rs. -/
inductive AsepriteError
  | unsupported (feature : String)
  | invalidTagRange («from» «to» : Nat)
deriving DecidableEq, Repr

/-- FramesIter from src/aseprite.rs. -/
structure FramesIter where
  frames : AsepriteFrames
  direction : AnimationDirection
  «from» : Nat
  «to» : Nat
  next_i : Nat
deriving Repr

/-- AsepriteFrames::slice from src/aseprite.rs. -/
def asepriteFramesSlice (frames : AsepriteFrames) («from» «to» : Nat)
    (direction : AnimationDirection) : FramesIter :=
  { frames := frames
    direction := direction
    «from» := «from»
    «to» := «to»
    next_i := match direction with
      | .forward => «from»
      | .reverse => «to» }

/-- FramesIter::next_index from src/aseprite.rs.  The outer Option is a
panic: the source saves the old next_i and then increments it (forward)
or decrements it (reverse), so with checked usize arithmetic the
increment panics at USIZE - 1 and the decrement panics at 0 (release
builds wrap instead). -/
def next_index (it : FramesIter) : Option (Option Nat × FramesIter) :=
  match it.direction with
  | .forward =>
    if it.next_i ≤ it.«to» then
      if it.next_i + 1 < USIZE then
        some (some it.next_i, { it with next_i := it.next_i + 1 })
      else none
    else some (none, it)
  | .reverse =>
    if it.«from» ≤ it.next_i then
      if 0 < it.next_i then
        some (some it.next_i, { it with next_i := it.next_i - 1 })
      else none
    else some (none, it)

/-- Iterator::next for FramesIter from src/aseprite.rs:
next_index().and_then(|i| self.frames.get(i)). -/
def framesIterNext (it : FramesIter) : Option (Option AsepriteFrame × FramesIter) :=
  match next_index it with
  | none => none
  | some (none, it1) => some (none, it1)
  | some (some i, it1) =>
    match asepriteFramesGet it.frames i with
    | none => none
    | some f => some (f, it1)

/-- Termination measure for iterating FramesIter: an upper bound on how
many more yields the iterator can make before stopping or panicking. -/
def iterMeasure (it : FramesIter) : Nat :=
  match it.direction with
  | .forward => it.«to» + 1 - it.next_i
  | .reverse => it.next_i + 1 - it.«from»

/-- The for loop of AsepriteState::new from src/aseprite.rs: walks the
frame iterator, validates each frame (rotation, sprite trimming, cel
trimming), and accumulates the atlas layout and the durations vector.
none is a panic (from the iterator's checked arithmetic, the dictionary
todo, or the URect conversion). -/
def stateLoop (it : FramesIter) (layout : TextureAtlasLayout) (durations : List Nat) :
    Option (Except AsepriteError (TextureAtlasLayout × List Nat)) :=
  match hn : framesIterNext it with
  | none => none
  | some (none, _) => some (.ok (layout, durations))
  | some (some frame, it1) =>
    if frame.rotated then some (.error (.unsupported ("Frame Rotation")))
    else if frame.trimmed ∨ uvecOfSize frame.source_size ≠ frame.frame.size then
      some (.error (.unsupported ("Sprite Trimming")))
    else if frame.frame.size ≠ frame.sprite_source_size.size then
      some (.error (.unsupported ("Cel Trimming")))
    else
      match urectOfRect frame.frame with
      | none => none
      | some r => stateLoop it1 (layout.add_texture r) (durations ++ [frame.duration])
termination_by iterMeasure it
decreasing_by
  unfold framesIterNext at hn
  split at hn
  · exact absurd hn (by simp)
  · exact absurd hn (by simp)
  · rename_i i it2 hni
    split at hn
    · exact absurd hn (by simp)
    · simp only [Option.some.injEq, Prod.mk.injEq] at hn
      obtain ⟨-, rfl⟩ := hn
      rcases it with ⟨fr, dir, f0, t0, n0⟩
      cases dir <;> simp only [next_index, iterMeasure] at hni ⊢ <;> split at hni
      · split at hni
        · simp only [Option.some.injEq, Prod.mk.injEq] at hni
          obtain ⟨-, rfl⟩ := hni
          simp only [iterMeasure]
          omega
        · exact absurd hni (by simp)
      · simp only [Option.some.injEq, Prod.mk.injEq] at hni
        exact absurd hni.1 (by simp)
      · split at hni
        · simp only [Option.some.injEq, Prod.mk.injEq] at hni
          obtain ⟨-, rfl⟩ := hni
          simp only [iterMeasure]
          omega
        · exact absurd hni (by simp)
      · simp only [Option.some.injEq, Prod.mk.injEq] at hni
        exact absurd hni.1 (by simp)

/-- AsepriteState::new from src/aseprite.rs.  none is a panic: the
capacity computation to - from + 1 of Vec::with_capacity, a panic inside
the loop, or the final durations.len() - 1 on an empty durations vector,
all with checked usize arithmetic. -/
def asepriteStateNew (tag : FrameTag) (json : AsepriteJson) :
    Option (Except AsepriteError AsepriteState) :=
  match json.frames with
  | .dict _ => some (.error (.unsupported ("Frames as dictionary")))
  | .list _ =>
    if tag.«to» < tag.«from» then some (.error (.invalidTagRange tag.«from» tag.«to»))
    else if USIZE ≤ tag.«to» - tag.«from» + 1 then none
    else
      match stateLoop (asepriteFramesSlice json.frames tag.«from» tag.«to» tag.direction)
          (TextureAtlasLayout.new_empty (uvecOfSize json.meta.size)) [] with
      | none => none
      | some (.error e) => some (.error e)
      | some (.ok (layout, durations)) =>
        if durations.length = 0 then none
        else
          some (.ok
            { name := tag.name
              direction := tag.direction
              color := tag.color
              atlas := { layout := layout, index := 0 }
              durations := durations
              first := 0
              last := durations.length - 1 })

/-- Projection used to state claims about the durations list of a
successful construction. -/
def resultDurations : Option (Except AsepriteError AsepriteState) → Option (List Nat)
  | some (.ok st) => some st.durations
  | some (.error _) => none
  | none => none

/-- Admissibility of a frame for the validator of AsepriteState::new: not
rotated, not trimmed, the three sizes agree, and the URect conversion of
its frame rectangle stays inside the u32 range. -/
def frameAdmissible (f : AsepriteFrame) : Prop :=
  f.rotated = false ∧ f.trimmed = false ∧
  uvecOfSize f.source_size = f.frame.size ∧
  f.frame.size = f.sprite_source_size.size ∧
  f.frame.x + f.frame.w < U32 ∧ f.frame.y + f.frame.h < U32

instance (f : AsepriteFrame) : Decidable (frameAdmissible f) := by
  unfold frameAdmissible
  infer_instance

/-- A concrete meta block for the concrete-input theorems. -/
def metaTest : AsepriteMeta :=
  { app := "aseprite", version := "1.3", image := "sheet.png", format := "RGBA8888"
    size := ⟨192, 64⟩, scale := "1", frame_tags := [], layers := none, slices := none }

/-- A concrete tag color for the concrete-input theorems. -/
def colorTest : AsepriteColor := ⟨255, 255, 255, 255⟩

/-- A concrete admissible (unrotated, untrimmed) 64 by 64 frame at sheet
position x with the given duration. -/
def validFrame (x dur : Nat) : AsepriteFrame :=
  { filename := "f", frame := ⟨x, 0, 64, 64⟩, rotated := false, trimmed := false
    sprite_source_size := ⟨0, 0, 64, 64⟩, source_size := ⟨64, 64⟩, duration := dur }

/-- Three admissible frames with durations 100, 150, 200 in flat order. -/
def frames3 : List AsepriteFrame := [validFrame 0 100, validFrame 64 150, validFrame 128 200]

/-- A sheet holding frames3 as a List-variant frame collection. -/
def json3 : AsepriteJson := ⟨.list frames3, metaTest⟩

/-- A concrete trimmed (but unrotated) frame. -/
def trimmedFrame : AsepriteFrame :=
  { filename := "t", frame := ⟨0, 0, 64, 64⟩, rotated := false, trimmed := true
    sprite_source_size := ⟨0, 0, 64, 64⟩, source_size := ⟨64, 64⟩, duration := 50 }

/-- A concrete rotated frame. -/
def rotatedFrame : AsepriteFrame :=
  { filename := "r", frame := ⟨64, 0, 64, 64⟩, rotated := true, trimmed := false
    sprite_source_size := ⟨0, 0, 64, 64⟩, source_size := ⟨64, 64⟩, duration := 60 }

/-! Helper lemmas about the iterator and the construction loop. -/

theorem framesIterNext_fwd_yield (l : List AsepriteFrame) (f0 t0 i : Nat)
    (hi : i ≤ t0) (hb : i + 1 < USIZE) :
    framesIterNext ⟨.list l, .forward, f0, t0, i⟩ =
      some (l.get? i, ⟨.list l, .forward, f0, t0, i + 1⟩) := by
  simp only [framesIterNext, next_index, asepriteFramesGet, if_pos hi, if_pos hb]

theorem framesIterNext_fwd_stop (l : List AsepriteFrame) (f0 t0 i : Nat) (hi : t0 < i) :
    framesIterNext ⟨.list l, .forward, f0, t0, i⟩ =
      some (none, ⟨.list l, .forward, f0, t0, i⟩) := by
  simp only [framesIterNext, next_index, if_neg (Nat.not_le.mpr hi)]

theorem framesIterNext_fwd_overflow (l : List AsepriteFrame) (f0 t0 i : Nat)
    (hi : i ≤ t0) (hb : ¬ i + 1 < USIZE) :
    framesIterNext ⟨.list l, .forward, f0, t0, i⟩ = none := by
  simp only [framesIterNext, next_index, if_pos hi, if_neg hb]

theorem framesIterNext_rev_yield (l : List AsepriteFrame) (f0 t0 i : Nat)
    (h1 : f0 ≤ i) (h2 : 0 < i) :
    framesIterNext ⟨.list l, .reverse, f0, t0, i⟩ =
      some (l.get? i, ⟨.list l, .reverse, f0, t0, i - 1⟩) := by
  simp only [framesIterNext, next_index, asepriteFramesGet, if_pos h1, if_pos h2]

theorem framesIterNext_rev_underflow (l : List AsepriteFrame) (f0 t0 : Nat) (h1 : f0 = 0) :
    framesIterNext ⟨.list l, .reverse, f0, t0, 0⟩ = none := by
  subst h1
  simp only [framesIterNext, next_index, if_pos (Nat.le_refl 0), if_neg (by omega : ¬ (0:Nat) < 0)]

theorem framesIterNext_rev_stop (l : List AsepriteFrame) (f0 t0 i : Nat) (h : i < f0) :
    framesIterNext ⟨.list l, .reverse, f0, t0, i⟩ =
      some (none, ⟨.list l, .reverse, f0, t0, i⟩) := by
  simp only [framesIterNext, next_index, if_neg (Nat.not_le.mpr h)]

theorem stateLoop_iter_crash (it : FramesIter) (lay : TextureAtlasLayout) (ds : List Nat)
    (h : framesIterNext it = none) : stateLoop it lay ds = none := by
  rw [stateLoop, h]

theorem stateLoop_iter_stop (it it1 : FramesIter) (lay : TextureAtlasLayout) (ds : List Nat)
    (h : framesIterNext it = some (none, it1)) :
    stateLoop it lay ds = some (.ok (lay, ds)) := by
  rw [stateLoop, h]

theorem stateLoop_iter_yield (it it1 : FramesIter) (f : AsepriteFrame)
    (lay : TextureAtlasLayout) (ds : List Nat)
    (h : framesIterNext it = some (some f, it1)) :
    stateLoop it lay ds =
      (if f.rotated then some (.error (.unsupported ("Frame Rotation")))
       else if f.trimmed ∨ uvecOfSize f.source_size ≠ f.frame.size then
         some (.error (.unsupported ("Sprite Trimming")))
       else if f.frame.size ≠ f.sprite_source_size.size then
         some (.error (.unsupported ("Cel Trimming")))
       else
         match urectOfRect f.frame with
         | none => none
         | some r => stateLoop it1 (lay.add_texture r) (ds ++ [f.duration])) := by
  rw [stateLoop, h]

theorem stateLoop_fwd_ok_length (d : Nat) :
    ∀ (l : List AsepriteFrame) (f0 t0 i : Nat) (lay : TextureAtlasLayout) (ds : List Nat)
      (out : TextureAtlasLayout × List Nat),
      d = t0 + 1 - i → t0 < l.length → l.length < USIZE →
      stateLoop ⟨.list l, .forward, f0, t0, i⟩ lay ds = some (.ok out) →
      out.2.length = ds.length + (t0 + 1 - i) := by
  induction d with
  | zero =>
    intro l f0 t0 i lay ds out hd hlt hlen h
    have hi : t0 < i := by omega
    rw [stateLoop_iter_stop _ _ _ _ (framesIterNext_fwd_stop l f0 t0 i hi)] at h
    simp only [Option.some.injEq, Except.ok.injEq] at h
    subst h
    simp only
    omega
  | succ k ih =>
    intro l f0 t0 i lay ds out hd hlt hlen h
    have hi : i ≤ t0 := by omega
    have hb : i + 1 < USIZE := by omega
    rcases hget : l.get? i with _ | f
    · exact absurd (List.get?_eq_none.mp hget) (by omega)
    · rw [stateLoop_iter_yield _ _ f _ _
        (by rw [framesIterNext_fwd_yield l f0 t0 i hi hb, hget])] at h
      split at h
      · exact absurd h (by simp)
      · split at h
        · exact absurd h (by simp)
        · split at h
          · exact absurd h (by simp)
          · split at h
            · exact absurd h (by simp)
            · have := ih l f0 t0 (i + 1) _ _ out (by omega) hlt hlen h
              simp only [List.length_append, List.length_cons, List.length_nil] at this
              omega

theorem stateLoop_rev_ok_length (d : Nat) :
    ∀ (l : List AsepriteFrame) (f0 t0 i : Nat) (lay : TextureAtlasLayout) (ds : List Nat)
      (out : TextureAtlasLayout × List Nat),
      d = i + 1 - f0 → 1 ≤ f0 → i ≤ t0 → t0 < l.length →
      stateLoop ⟨.list l, .reverse, f0, t0, i⟩ lay ds = some (.ok out) →
      out.2.length = ds.length + (i + 1 - f0) := by
  induction d with
  | zero =>
    intro l f0 t0 i lay ds out hd hf0 hit hlt h
    have hi : i < f0 := by omega
    rw [stateLoop_iter_stop _ _ _ _ (framesIterNext_rev_stop l f0 t0 i hi)] at h
    simp only [Option.some.injEq, Except.ok.injEq] at h
    subst h
    simp only
    omega
  | succ k ih =>
    intro l f0 t0 i lay ds out hd hf0 hit hlt h
    have hi : f0 ≤ i := by omega
    have h0 : 0 < i := by omega
    rcases hget : l.get? i with _ | f
    · exact absurd (List.get?_eq_none.mp hget) (by omega)
    · rw [stateLoop_iter_yield _ _ f _ _
        (by rw [framesIterNext_rev_yield l f0 t0 i hi h0, hget])] at h
      split at h
      · exact absurd h (by simp)
      · split at h
        · exact absurd h (by simp)
        · split at h
          · exact absurd h (by simp)
          · split at h
            · exact absurd h (by simp)
            · have := ih l f0 t0 (i - 1) _ _ out (by omega) hf0 (by omega) hlt h
              simp only [List.length_append, List.length_cons, List.length_nil] at this
              omega

theorem stateLoop_rev0_not_ok (i : Nat) :
    ∀ (l : List AsepriteFrame) (t0 : Nat) (lay : TextureAtlasLayout) (ds : List Nat)
      (out : TextureAtlasLayout × List Nat),
      i < l.length →
      stateLoop ⟨.list l, .reverse, 0, t0, i⟩ lay ds ≠ some (.ok out) := by
  induction i with
  | zero =>
    intro l t0 lay ds out hlt h
    rw [stateLoop_iter_crash _ _ _ (framesIterNext_rev_underflow l 0 t0 rfl)] at h
    exact absurd h (by simp)
  | succ k ih =>
    intro l t0 lay ds out hlt h
    rcases hget : l.get? (k + 1) with _ | f
    · exact absurd (List.get?_eq_none.mp hget) (by omega)
    · rw [stateLoop_iter_yield _ _ f _ _
        (by rw [framesIterNext_rev_yield l 0 t0 (k + 1) (Nat.zero_le _) (Nat.succ_pos k), hget])] at h
      split at h
      · exact absurd h (by simp)
      · split at h
        · exact absurd h (by simp)
        · split at h
          · exact absurd h (by simp)
          · split at h
            · exact absurd h (by simp)
            · exact ih l t0 _ _ out (by omega) (by simpa using h)

theorem stateLoop_fwd_rotated (d : Nat) :
    ∀ (l : List AsepriteFrame) (f0 t0 i k : Nat) (f : AsepriteFrame)
      (lay : TextureAtlasLayout) (ds : List Nat),
      d = k - i → i ≤ k → k ≤ t0 → t0 < l.length → l.length < USIZE →
      l.get? k = some f → f.rotated = true →
      (∀ j g, i ≤ j → j < k → l.get? j = some g → frameAdmissible g) →
      stateLoop ⟨.list l, .forward, f0, t0, i⟩ lay ds =
        some (.error (.unsupported ("Frame Rotation"))) := by
  induction d with
  | zero =>
    intro l f0 t0 i k f lay ds hd hik hkt hlt hlen hget hrot hadm
    have hik0 : i = k := by omega
    subst hik0
    rw [stateLoop_iter_yield _ _ f _ _
      (by rw [framesIterNext_fwd_yield l f0 t0 i (by omega) (by omega), hget])]
    rw [if_pos hrot]
  | succ m ih =>
    intro l f0 t0 i k f lay ds hd hik hkt hlt hlen hget hrot hadm
    have hik1 : i < k := by omega
    rcases hgi : l.get? i with _ | g
    · exact absurd (List.get?_eq_none.mp hgi) (by omega)
    · obtain ⟨har, hat, hs1, hs2, hx, hy⟩ := hadm i g (Nat.le_refl i) hik1 hgi
      rw [stateLoop_iter_yield _ _ g _ _
        (by rw [framesIterNext_fwd_yield l f0 t0 i (by omega) (by omega), hgi])]
      rw [if_neg (by simp [har]), if_neg (by simp [hat, hs1]), if_neg (by simp [hs2])]
      rw [urectOfRect, if_pos ⟨hx, hy⟩]
      simp only
      exact ih l f0 t0 (i + 1) k f _ _ (by omega) (by omega) hkt hlt hlen hget hrot
        (fun j g2 hj1 hj2 hgj => hadm j g2 (by omega) hj2 hgj)

theorem stateLoop_rev_rotated (d : Nat) :
    ∀ (l : List AsepriteFrame) (f0 t0 i k : Nat) (f : AsepriteFrame)
      (lay : TextureAtlasLayout) (ds : List Nat),
      d = i - k → k ≤ i → i ≤ t0 → t0 < l.length → 1 ≤ f0 → f0 ≤ k →
      l.get? k = some f → f.rotated = true →
      (∀ j g, k < j → j ≤ i → l.get? j = some g → frameAdmissible g) →
      stateLoop ⟨.list l, .reverse, f0, t0, i⟩ lay ds =
        some (.error (.unsupported ("Frame Rotation"))) := by
  induction d with
  | zero =>
    intro l f0 t0 i k f lay ds hd hki hit hlt hf0 hfk hget hrot hadm
    have hik0 : i = k := by omega
    subst hik0
    rw [stateLoop_iter_yield _ _ f _ _
      (by rw [framesIterNext_rev_yield l f0 t0 i (by omega) (by omega), hget])]
    rw [if_pos hrot]
  | succ m ih =>
    intro l f0 t0 i k f lay ds hd hki hit hlt hf0 hfk hget hrot hadm
    have hki1 : k < i := by omega
    rcases hgi : l.get? i with _ | g
    · exact absurd (List.get?_eq_none.mp hgi) (by omega)
    · obtain ⟨har, hat, hs1, hs2, hx, hy⟩ := hadm i g hki1 (Nat.le_refl i) hgi
      rw [stateLoop_iter_yield _ _ g _ _
        (by rw [framesIterNext_rev_yield l f0 t0 i (by omega) (by omega), hgi])]
      rw [if_neg (by simp [har]), if_neg (by simp [hat, hs1]), if_neg (by simp [hs2])]
      rw [urectOfRect, if_pos ⟨hx, hy⟩]
      simp only
      exact ih l f0 t0 (i - 1) k f _ _ (by omega) (by omega) (by omega) hlt hf0 hfk hget hrot
        (fun j g2 hj1 hj2 hgj => hadm j g2 hj1 (by omega) hgj)

theorem asepriteStateNew_ok_durations (l : List AsepriteFrame) (meta : AsepriteMeta)
    (tag : FrameTag) (ds : List Nat)
    (hft : tag.«from» ≤ tag.«to») (hcap : tag.«to» - tag.«from» + 1 < USIZE)
    (h : resultDurations (asepriteStateNew tag ⟨.list l, meta⟩) = some ds) :
    ∃ lay, stateLoop (asepriteFramesSlice (.list l) tag.«from» tag.«to» tag.direction)
      (TextureAtlasLayout.new_empty (uvecOfSize meta.size)) [] = some (.ok (lay, ds)) := by
  simp only [asepriteStateNew] at h
  rw [if_neg (by omega), if_neg (by omega)] at h
  split at h
  · exact absurd h (by simp [resultDurations])
  · exact absurd h (by simp [resultDurations])
  · rename_i lay durs heq
    by_cases hz : durs.length = 0
    · rw [if_pos hz] at h
      exact absurd h (by simp [resultDurations])
    · rw [if_neg hz] at h
      simp only [resultDurations, Option.some.injEq] at h
      subst h
      exact ⟨lay, heq⟩

/-! Claim theorems. -/

/-- C1: the claim is the intent but the code violates it (code bug).
With from = 0 ≤ to = 1 and Reverse direction the index sequence must
yield exactly the two indices 1, 0 and then stop; instead the code's
next_index saves the old index and then executes next_i -= 1, which for
next_i = 0 is a usize underflow: with overflow checks (dev profile) this
panics while yielding the final index 0, and in a release build next_i
wraps to 2^64 - 1 so next_index keeps yielding out-of-range indices and
never returns None.  This theorem evaluates the code at the failing
input: the first call yields index 1 leaving next_i = 0, and the second
call is the underflow panic (modeled as none). -/
theorem C1_reverse_from_zero_underflow :
    next_index (asepriteFramesSlice (AsepriteFrames.list []) 0 1 .reverse) =
      some (some 1, ⟨AsepriteFrames.list [], .reverse, 0, 1, 0⟩) ∧
    next_index ⟨AsepriteFrames.list [], .reverse, 0, 1, 0⟩ = none :=
  ⟨rfl, rfl⟩

/-- C3: for every List-variant sheet and every tag with from > to, in
either direction, construction returns the InvalidTagRange(from, to)
error.  The theorem quantifies over every frame collection and every tag
field, so the result is independent of the frames: no frame is visited
and no AnimationState is produced. -/
theorem C3_invalid_tag_range (l : List AsepriteFrame) (meta : AsepriteMeta) (tag : FrameTag)
    (h : tag.«to» < tag.«from») :
    asepriteStateNew tag ⟨.list l, meta⟩ =
      some (.error (.invalidTagRange tag.«from» tag.«to»)) := by
  simp only [asepriteStateNew]
  rw [if_pos h]

theorem C3_witness :
    (1 : Nat) < 2 ∧
    asepriteStateNew ⟨"t", 2, 1, .forward, colorTest⟩ ⟨.list frames3, metaTest⟩ =
      some (.error (.invalidTagRange 2 1)) :=
  ⟨by decide, C3_invalid_tag_range frames3 metaTest ⟨"t", 2, 1, .forward, colorTest⟩ (by decide)⟩

/-- C5: the Forward half of the claim holds: construction over the three
admissible frames with durations 100, 150, 200 yields exactly that
duration sequence.  The Reverse half fails on the code (code bug): with
the tag range starting at frame 0, the reverse sequencer underflows
next_i while yielding frame 0, so construction panics under checked
arithmetic (in a release build it wraps and does produce 200, 150, 100,
at the price of the iterator afterwards violating its FusedIterator
contract, see C8). -/
theorem C5_forward_ok_reverse_crashes :
    resultDurations (asepriteStateNew ⟨"walk", 0, 2, .forward, colorTest⟩ json3) =
      some [100, 150, 200] ∧
    asepriteStateNew ⟨"walk", 0, 2, .reverse, colorTest⟩ json3 = none := by
  constructor <;>
    simp [asepriteStateNew, stateLoop, framesIterNext, next_index, asepriteFramesGet,
      asepriteFramesSlice, urectOfRect, resultDurations, metaTest, json3, frames3,
      validFrame, uvecOfSize, AsepriteRect.size, USIZE, U32,
      TextureAtlasLayout.new_empty, TextureAtlasLayout.add_texture]

/-- C8: the claim is the intent but the code violates it (code bug).  A
one-frame sheet sliced from 0 to 0 in Reverse: the very first
Iterator::next call underflows next_i while yielding frame 0, a panic
under checked arithmetic (modeled as none), so the sequence never reaches
ordinary exhaustion at all.  In a release build next_i instead wraps to
2^64 - 1: the iterator yields the frame, then returns None while next_i
counts down through out-of-range indices, and after 2^64 - 1 further
calls next_i reaches 0 again and the iterator yields the frame once more,
violating permanent exhaustion and the declared FusedIterator contract. -/
theorem C8_reverse_exhaustion_not_permanent :
    framesIterNext (asepriteFramesSlice (AsepriteFrames.list [validFrame 0 100]) 0 0 .reverse) =
      none :=
  rfl

/-- C9: for every List-variant sheet and every tag with from ≤ to whose
range lies entirely outside the frame collection (length ≤ from),
construction returns no typed error and no state: it panics (modeled as
none) — the loop visits no frame, durations stays empty, and the final
durations.len() - 1 underflows usize (for Reverse tags with from = 0 the
sheet is empty and the sequencer's own decrement underflows first). -/
theorem C9_out_of_range_panics (l : List AsepriteFrame) (meta : AsepriteMeta) (tag : FrameTag)
    (hft : tag.«from» ≤ tag.«to») (hlen : l.length ≤ tag.«from») :
    asepriteStateNew tag ⟨.list l, meta⟩ = none := by
  simp only [asepriteStateNew]
  rw [if_neg (by omega)]
  by_cases hcap : USIZE ≤ tag.«to» - tag.«from» + 1
  · rw [if_pos hcap]
  · rw [if_neg hcap]
    rcases hdir : tag.direction with _ | _ <;> simp only [asepriteFramesSlice]
    · by_cases hb : tag.«from» + 1 < USIZE
      · rw [stateLoop_iter_stop _ _ _ _
          (by rw [framesIterNext_fwd_yield l _ _ _ hft hb, List.get?_len_le hlen])]
        simp
      · rw [stateLoop_iter_crash _ _ _ (framesIterNext_fwd_overflow l _ _ _ hft hb)]
    · by_cases h0 : 0 < tag.«to»
      · rw [stateLoop_iter_stop _ _ _ _
          (by rw [framesIterNext_rev_yield l _ _ _ hft h0, List.get?_len_le (by omega)])]
        simp
      · have ht0 : tag.«to» = 0 := by omega
        have hf00 : tag.«from» = 0 := by omega
        rw [ht0, hf00,
          stateLoop_iter_crash _ _ _ (framesIterNext_rev_underflow l 0 0 rfl)]

theorem C9_witness :
    (0 : Nat) ≤ 0 ∧ (List.nil : List AsepriteFrame).length ≤ 0 ∧
    asepriteStateNew ⟨"t", 0, 0, .forward, colorTest⟩ ⟨.list [], metaTest⟩ = none :=
  ⟨Nat.le_refl 0, Nat.le_refl 0,
    C9_out_of_range_panics [] metaTest ⟨"t", 0, 0, .forward, colorTest⟩
      (Nat.le_refl 0) (Nat.le_refl 0)⟩

/-- C2: counterexample to the claim as stated.  A sheet with three
admissible frames and the tag from 0 to 5 Forward: construction succeeds
(the loop silently stops at the end of the frame list), and the duration
sequence has length 3, not to - from + 1 = 6. -/
theorem C2_counterexample :
    resultDurations (asepriteStateNew ⟨"walk", 0, 5, .forward, colorTest⟩ json3) =
      some [100, 150, 200] ∧
    ¬ ([100, 150, 200] : List Nat).length = 5 - 0 + 1 := by
  constructor
  · simp [asepriteStateNew, stateLoop, framesIterNext, next_index, asepriteFramesGet,
      asepriteFramesSlice, urectOfRect, resultDurations, metaTest, json3, frames3,
      validFrame, uvecOfSize, AsepriteRect.size, USIZE, U32,
      TextureAtlasLayout.new_empty, TextureAtlasLayout.add_texture]
  · decide

/-- C2 (amended): for every List-variant sheet and every tag with
from ≤ to whose whole range lies inside the frame collection
(to < number of frames, the frame count being a usize), a successfully
constructed AnimationState has a durations sequence of length exactly
to - from + 1. -/
theorem C2_amended_durations_length (l : List AsepriteFrame) (meta : AsepriteMeta)
    (tag : FrameTag) (ds : List Nat)
    (hft : tag.«from» ≤ tag.«to») (htl : tag.«to» < l.length) (hlen : l.length < USIZE)
    (h : resultDurations (asepriteStateNew tag ⟨.list l, meta⟩) = some ds) :
    ds.length = tag.«to» - tag.«from» + 1 := by
  obtain ⟨lay, hl⟩ := asepriteStateNew_ok_durations l meta tag ds hft (by omega) h
  rcases hdir : tag.direction with _ | _ <;> rw [hdir] at hl <;>
    simp only [asepriteFramesSlice] at hl
  · have := stateLoop_fwd_ok_length (tag.«to» + 1 - tag.«from») l tag.«from» tag.«to»
      tag.«from» _ _ (lay, ds) rfl htl hlen hl
    simp only [List.length_nil] at this
    omega
  · by_cases hf0 : tag.«from» = 0
    · rw [hf0] at hl
      exact absurd hl (stateLoop_rev0_not_ok tag.«to» l tag.«to» _ _ (lay, ds) htl)
    · have := stateLoop_rev_ok_length (tag.«to» + 1 - tag.«from») l tag.«from» tag.«to»
        tag.«to» _ _ (lay, ds) rfl (by omega) (Nat.le_refl _) htl hl
      simp only [List.length_nil] at this
      omega

theorem C2_amended_witness :
    (1 : Nat) ≤ 2 ∧ (2 : Nat) < frames3.length ∧ frames3.length < USIZE ∧
    ([150, 200] : List Nat).length = 2 - 1 + 1 :=
  ⟨by decide, by decide, by norm_num [frames3, USIZE],
    C2_amended_durations_length frames3 metaTest ⟨"walk", 1, 2, .forward, colorTest⟩
      [150, 200] (by decide) (by decide) (by norm_num [frames3, USIZE])
      (by simp [asepriteStateNew, stateLoop, framesIterNext, next_index, asepriteFramesGet,
        asepriteFramesSlice, urectOfRect, resultDurations, metaTest, json3, frames3,
        validFrame, uvecOfSize, AsepriteRect.size, USIZE, U32,
        TextureAtlasLayout.new_empty, TextureAtlasLayout.add_texture])⟩

/-- C4: counterexample to the claim as stated.  The tag range 0..1
Forward contains the rotated frame at index 1, but the frame at index 0
is trimmed, so construction fails with the Sprite Trimming error, not
with Unsupported("Frame Rotation") as the claim requires for every tag
whose range contains a rotated frame. -/
theorem C4_counterexample :
    asepriteStateNew ⟨"t", 0, 1, .forward, colorTest⟩
        ⟨.list [trimmedFrame, rotatedFrame], metaTest⟩ =
      some (.error (.unsupported ("Sprite Trimming"))) ∧
    rotatedFrame.rotated = true ∧
    AsepriteError.unsupported ("Sprite Trimming") ≠ .unsupported ("Frame Rotation") := by
  refine ⟨?_, rfl, by decide⟩
  simp [asepriteStateNew, stateLoop, framesIterNext, next_index, asepriteFramesGet,
    asepriteFramesSlice, urectOfRect, metaTest, trimmedFrame, rotatedFrame,
    uvecOfSize, AsepriteRect.size, USIZE, U32,
    TextureAtlasLayout.new_empty, TextureAtlasLayout.add_texture]

/-- C4 (amended): if the tag's range lies inside the frame collection,
the frame at position k of the range is rotated, every frame strictly
earlier in sequencing order is admissible (in particular not itself
rotated and passing both trimming checks), and the sequencer actually
reaches k (which for Reverse requires from ≥ 1, since the from = 0
reverse sequencer underflows before visiting frame 0), then construction
fails with Unsupported("Frame Rotation") at that first rotated frame and
returns no state, so no durations or atlas rectangles are retained. -/
theorem C4_amended_rotation_error (l : List AsepriteFrame) (meta : AsepriteMeta)
    (tag : FrameTag) (k : Nat) (f : AsepriteFrame)
    (hk1 : tag.«from» ≤ k) (hk2 : k ≤ tag.«to»)
    (htl : tag.«to» < l.length) (hlen : l.length < USIZE)
    (hget : l.get? k = some f) (hrot : f.rotated = true)
    (hfwd : tag.direction = .forward →
      ∀ j g, tag.«from» ≤ j → j < k → l.get? j = some g → frameAdmissible g)
    (hrev : tag.direction = .reverse →
      1 ≤ tag.«from» ∧ ∀ j g, k < j → j ≤ tag.«to» → l.get? j = some g → frameAdmissible g) :
    asepriteStateNew tag ⟨.list l, meta⟩ =
      some (.error (.unsupported ("Frame Rotation"))) := by
  simp only [asepriteStateNew]
  rw [if_neg (by omega), if_neg (by omega)]
  rcases hdir : tag.direction with _ | _ <;> simp only [asepriteFramesSlice]
  · rw [stateLoop_fwd_rotated (k - tag.«from») l tag.«from» tag.«to» tag.«from» k f _ _
      rfl hk1 hk2 htl hlen hget hrot (fun j g hj1 hj2 hgj => hfwd hdir j g hj1 hj2 hgj)]
  · obtain ⟨hf1, hadm⟩ := hrev hdir
    rw [stateLoop_rev_rotated (tag.«to» - k) l tag.«from» tag.«to» tag.«to» k f _ _
      rfl hk2 (Nat.le_refl _) htl hf1 hk1 hget hrot
      (fun j g hj1 hj2 hgj => hadm j g hj1 hj2 hgj)]

theorem C4_witness :
    rotatedFrame.rotated = true ∧
    asepriteStateNew ⟨"t", 0, 0, .forward, colorTest⟩ ⟨.list [rotatedFrame], metaTest⟩ =
      some (.error (.unsupported ("Frame Rotation"))) :=
  ⟨rfl,
    C4_amended_rotation_error [rotatedFrame] metaTest ⟨"t", 0, 0, .forward, colorTest⟩
      0 rotatedFrame (Nat.le_refl 0) (Nat.le_refl 0) (by decide) (by norm_num [USIZE])
      rfl rfl
      (fun _ j g hj1 hj2 hgj => absurd hj2 (by omega))
      (fun hdir => absurd hdir (by decide))⟩

theorem dropBytes_utf8Len (l : List Char) : dropBytes l (utf8Len l) = some [] := by
  induction l with
  | nil => simp [dropBytes, utf8Len]
  | cons c rest ih =>
    rw [utf8Len, dropBytes]
    rw [if_neg (by have hc := c.utf8Size_pos; omega)]
    show (if c.utf8Size ≤ c.utf8Size + utf8Len rest then
      dropBytes rest (c.utf8Size + utf8Len rest - c.utf8Size) else none) = some []
    rw [if_pos (Nat.le_add_right _ _)]
    simpa [Nat.add_sub_cancel_left] using ih

theorem sliceBytes_len7_end (l : List Char) (h : utf8Len l = 7) : sliceBytes l 7 9 = none := by
  rw [sliceBytes, ← h, dropBytes_utf8Len]
  rw [h]
  rfl

/-- C6: the two concrete color parses of the claim, and the general alpha
default: every string of byte length 7 that parses successfully yields
alpha 255 (str::get(7..9) is None past the end of the string, selecting
the 255 default). -/
theorem C6_color_concrete_and_alpha_default :
    asepriteColorTryFrom ("#FF000080") = some (.ok ⟨255, 0, 0, 128⟩) ∧
    asepriteColorTryFrom ("#00FF00") = some (.ok ⟨0, 255, 0, 255⟩) ∧
    ∀ (s : String) (c : AsepriteColor), utf8Len s.data = 7 →
      asepriteColorTryFrom s = some (.ok c) → c.alpha = 255 := by
  refine ⟨rfl, rfl, ?_⟩
  intro s c h7 h
  unfold asepriteColorTryFrom at h
  split at h
  · exact absurd h (by simp)
  · split at h
    · exact absurd h (by simp)
    · split at h
      · exact absurd h (by simp)
      · split at h
        · exact absurd h (by simp)
        · split at h
          · exact absurd h (by simp)
          · split at h
            · exact absurd h (by simp)
            · split at h
              · exact absurd h (by simp)
              · split at h
                · exact absurd h (by simp)
                · split at h
                  · exact absurd h (by simp)
                  · split at h
                    · exact absurd h (by simp)
                    · rename_i alpha heq
                      rw [sliceBytes_len7_end s.data h7] at heq
                      simp only [Except.ok.injEq] at heq
                      simp only [Option.some.injEq, Except.ok.injEq] at h
                      subst h
                      simpa using heq.symm

theorem C6_witness :
    utf8Len ("#ABCDEF").data = 7 ∧ (⟨171, 205, 239, 255⟩ : AsepriteColor).alpha = 255 :=
  ⟨rfl, C6_color_concrete_and_alpha_default.2.2 ("#ABCDEF") ⟨171, 205, 239, 255⟩ rfl rfl⟩

/-- C7: counterexample to the claim as stated.  The string "abcdef" does
not start with the hash character, yet parsing fails with WrongLength(6),
not with the missing-prefix error: the length check runs before the
prefix check. -/
theorem C7_counterexample :
    asepriteColorTryFrom ("abcdef") = some (.error (.wrongLength 6)) ∧
    ColorParseError.wrongLength 6 ≠ ColorParseError.noHashtag :=
  ⟨rfl, by decide⟩

/-- C7 (amended): a color string of byte length 7 or 9 whose first
character is a one-byte (ASCII) character other than the hash fails with
the missing-prefix error; and every string of byte length 6, 8 or 10
fails with the wrong-length error carrying that length (this second part
holds for every such string, since the length check runs first). -/
theorem C7_amended_prefix_and_length :
    (∀ (s : String) (c : Char) (rest : List Char),
      s.data = c :: rest → c.utf8Size = 1 → c ≠ '#' →
      (utf8Len s.data = 7 ∨ utf8Len s.data = 9) →
      asepriteColorTryFrom s = some (.error .noHashtag)) ∧
    (∀ s : String,
      utf8Len s.data = 6 ∨ utf8Len s.data = 8 ∨ utf8Len s.data = 10 →
      asepriteColorTryFrom s = some (.error (.wrongLength (utf8Len s.data)))) := by
  constructor
  · intro s c rest hdata hsize hch hlen
    unfold asepriteColorTryFrom
    rw [if_neg (fun hc => hlen.elim (fun h => absurd h hc.1) (fun h => absurd h hc.2))]
    have hslice : sliceBytes s.data 0 1 = some [c] := by
      rw [hdata]
      show takeBytes (c :: rest) 1 = some [c]
      rw [takeBytes, if_neg (by decide : ¬ (1 = 0))]
      show (if c.utf8Size ≤ 1 then (takeBytes rest (1 - c.utf8Size)).map (List.cons c)
        else none) = some [c]
      rw [hsize, if_pos (Nat.le_refl 1)]
      rw [takeBytes.eq_def, if_pos (by decide : (1 : Nat) - 1 = 0)]
      rfl
    simp only [hslice]
    rw [if_pos (by simpa using hch)]
  · intro s hlen
    unfold asepriteColorTryFrom
    rcases hlen with h | h | h <;> rw [h] <;> rw [if_pos (by decide)]

/-- C10: the color parser's byte-range slicing panics on a
non-character-boundary position instead of returning a ColorParseError:
the string starting with the two-byte character 'é' followed by five
ASCII digits has byte length 7, so it passes the length check, and then
the slice value[0..1] of the prefix check cuts the first character in
half — a panic (modeled as none). -/
theorem C10_multibyte_boundary_panic :
    utf8Len ("é23456").data = 7 ∧ asepriteColorTryFrom ("é23456") = none :=
  ⟨rfl, rfl⟩

theorem C7_witness :
    asepriteColorTryFrom ("a234567") = some (.error .noHashtag) ∧
    asepriteColorTryFrom ("abcdefgh") = some (.error (.wrongLength 8)) :=
  ⟨C7_amended_prefix_and_length.1 ("a234567") 'a' ("234567").data rfl rfl (by decide)
      (Or.inl rfl),
    C7_amended_prefix_and_length.2 ("abcdefgh") (Or.inr (Or.inl rfl))⟩
